import Mathlib

/-!
Shallow embedding of `server/script/ipc/governor.go`: the `Governor` that
supervises a worker `Process`, serializes exchanges through a cancellable
mutex, classifies transport errors and respawns the worker on transient
transport failure.

Processes are modelled as deterministic behaviour trees: `Behavior` gives the
responses of the current instance (as the test fakes of the spec do, ignoring
the context inside `Send`/`Receive`), and the `Process` tree encodes the
result of each successive `Spawn`.  Every governor operation is instrumented
with an event trace so that call counts and call order (sends, waits, spawns,
lock acquisitions and releases) can be stated and proved.
-/

/-- Opaque request/response payloads (`[]byte`). -/
abbrev Bytes := List Nat

/-- Go error values as the governor code sees them: `io.EOF`, an error built
from a message, or a `pkg/errors` wrap of a cause under a short label. -/
inductive GoErr where
  | eof : GoErr
  | mk (msg : String) : GoErr
  | wrap (label : String) (cause : GoErr) : GoErr
deriving DecidableEq

/-- `err.Error()`: a wrap prints `label: cause`; `io.EOF` prints `EOF`. -/
def errText : GoErr → String
  | GoErr.eof => "EOF"
  | GoErr.mk m => m
  | GoErr.wrap l c => l ++ ": " ++ errText c

/-- `errors.Is err target`: `target` equals `err` or a member of its cause
chain (pkg/errors wraps implement `Unwrap`). -/
def errIs : GoErr → GoErr → Bool
  | GoErr.wrap l c, t => (GoErr.wrap l c == t) || errIs c t
  | e, t => e == t

/-- `pat` begins the character list `s`. -/
def charsLead : List Char → List Char → Bool
  | [], _ => true
  | _ :: _, [] => false
  | a :: as, b :: bs => a == b && charsLead as bs

/-- `pat` occurs somewhere inside the character list. -/
def charsHaveSub (pat : List Char) : List Char → Bool
  | [] => charsLead pat []
  | b :: bs => charsLead pat (b :: bs) || charsHaveSub pat bs

/-- `strings.Contains s pat`. -/
def strContains (s pat : String) : Bool :=
  charsHaveSub pat.data s.data

/-- The transport-failure classification of `Exchange`
(governor.go lines 86-88): `errors.Is(err, io.EOF)`, or the message contains
`"file already closed"`, or it contains `"broken pipe"`. -/
def isTransient (e : GoErr) : Bool :=
  errIs e GoErr.eof || strContains (errText e) "file already closed"
    || strContains (errText e) "broken pipe"

/-- Observable events of a governor call, in call order. -/
inductive Ev where
  | sendEv (d : Bytes)
  | recvEv
  | waitEv
  | spawnEv
  | killEv
  | lockEv
  | releaseEv
deriving DecidableEq

/-- Deterministic behaviour of one process instance: the error `Send` returns
for a payload (none = success), the result `Receive` then yields for that
payload, and the result of `Wait`. -/
structure Behavior where
  sendE : Bytes → Option GoErr
  recvE : Bytes → Except GoErr Bytes
  waitE : Option GoErr

/-- A process together with the outcome of every later `Spawn`: a `leaf`
is an instance whose `Spawn` fails with the given error, a `node` is an
instance whose `Spawn` yields the child process. -/
inductive Process where
  | leaf (b : Behavior) (spawnErr : GoErr) : Process
  | node (b : Behavior) (next : Process) : Process

/-- Behaviour of the current instance. -/
def Process.behavior : Process → Behavior
  | Process.leaf b _ => b
  | Process.node b _ => b

/-- `Process.Spawn()`. -/
def Process.spawnE : Process → Except GoErr Process
  | Process.leaf _ se => Except.error se
  | Process.node _ nxt => Except.ok nxt

/-- Modelled from the spec: the cancellable `Mutex` implementation is not part
of the shown source (governor.go only declares the `mu Mutex` field).  Per
spec section 4.2, `Lock(ctx)` blocks until acquired or the context is done,
in which case it returns the context error and no lock is held.  `doneAt`
is the loop iteration from which `ctx.Done()` fires (contexts stay done once
done), `ctxError` is `ctx.Err()`, and `lockFails` says whether this call's
lock acquisition fails (returning `ctxError`). -/
structure Ctx where
  doneAt : Option Nat
  ctxError : GoErr
  lockFails : Bool

/-- Whether `ctx.Done()` has fired at loop iteration `i`. -/
def ctxDone (c : Ctx) (i : Nat) : Bool :=
  match c.doneAt with
  | none => false
  | some n => decide (n ≤ i)

/-- One `Send`+`Receive` attempt against a behaviour, with its events: the
body of the private `Governor.exchange` (governor.go lines 108-114) — if
`Send` errs that error is returned and `Receive` is not called. -/
def exchangeOn (b : Behavior) (d : Bytes) : Except GoErr Bytes × List Ev :=
  match b.sendE d with
  | some e => (Except.error e, [Ev.sendEv d])
  | none => (b.recvE d, [Ev.sendEv d, Ev.recvEv])

/-- The retry loop of `Governor.Exchange` (governor.go lines 72-105), after
the mutex is held: check the context, attempt one exchange, classify the
error, and on a transient transport failure reap (`Wait`), `Spawn` and retry
with the replacement process.  Returns the result, the process handle held
at exit, and the trace of events. -/
def exchangeLoop (c : Ctx) (d : Bytes) : Nat → Process → Except GoErr Bytes × Process × List Ev
  | i, p =>
    if ctxDone c i then (Except.error c.ctxError, p, [])
    else
      match exchangeOn p.behavior d with
      | (Except.ok r, t) => (Except.ok r, p, t)
      | (Except.error e, t) =>
        if isTransient e then
          match p.behavior.waitE with
          | some we => (Except.error we, p, t ++ [Ev.waitEv])
          | none =>
            match p with
            | Process.leaf b se =>
              (Except.error (GoErr.wrap "respawn" se), Process.leaf b se,
                t ++ [Ev.waitEv, Ev.spawnEv])
            | Process.node _ nxt =>
              match exchangeLoop c d (i + 1) nxt with
              | (res, p2, t2) => (res, p2, t ++ [Ev.waitEv, Ev.spawnEv] ++ t2)
        else (Except.error e, p, t)

/-- The governor: holds the current process handle (the mutex state lives in
`Ctx.lockFails` above). -/
structure Governor where
  process : Process

/-- `Govern`: spawn once from the template; wrap a failure with `"spawn"`. -/
def Govern (template : Process) : Except GoErr Governor :=
  match template.spawnE with
  | Except.error e => Except.error (GoErr.wrap "spawn" e)
  | Except.ok p => Except.ok ⟨p⟩

/-- `Governor.Exchange` (governor.go lines 64-106): lock (returning the lock
error on failure, with no lock held), run the retry loop, release on every
exit path (`defer cancel()`). -/
def Governor.Exchange (g : Governor) (c : Ctx) (d : Bytes) :
    Except GoErr Bytes × Governor × List Ev :=
  if c.lockFails then (Except.error c.ctxError, g, [])
  else
    match exchangeLoop c d 0 g.process with
    | (res, p2, t) => (res, ⟨p2⟩, Ev.lockEv :: (t ++ [Ev.releaseEv]))

/-- The private `Governor.exchange`: one attempt on the current handle. -/
def Governor.exchange (g : Governor) (d : Bytes) : Except GoErr Bytes × List Ev :=
  exchangeOn g.process.behavior d

/-- `Governor.ExchangeDirect` (governor.go lines 116-124): lock, one single
attempt on the current handle, release; no retry, no respawn. -/
def Governor.ExchangeDirect (g : Governor) (c : Ctx) (d : Bytes) :
    Except GoErr Bytes × Governor × List Ev :=
  if c.lockFails then (Except.error c.ctxError, g, [])
  else
    match Governor.exchange g d with
    | (res, t) => (res, g, Ev.lockEv :: (t ++ [Ev.releaseEv]))

/-- `Governor.Kill` (governor.go lines 127-131): lock under the background
context (which never fails), kill, release. -/
def Governor.Kill (_g : Governor) : List Ev :=
  [Ev.lockEv, Ev.killEv, Ev.releaseEv]

/-- `Governor.Wait` (governor.go lines 134-143): lock under the background
context, wait on the current handle, release; the wait error (or success) is
returned as is. -/
def Governor.Wait (g : Governor) : Option GoErr × List Ev :=
  (g.process.behavior.waitE, [Ev.lockEv, Ev.waitEv, Ev.releaseEv])

/-! ### Unfolding lemmas for the retry loop -/

/-- The events of a single attempt: `Send` alone when `Send` errs, else
`Send` then `Receive`. -/
theorem exchangeOn_trace (b : Behavior) (d : Bytes) :
    (exchangeOn b d).2 = [Ev.sendEv d] ∨ (exchangeOn b d).2 = [Ev.sendEv d, Ev.recvEv] := by
  unfold exchangeOn
  cases b.sendE d <;> simp

theorem exchangeLoop_done (c : Ctx) (d : Bytes) (i : Nat) (p : Process)
    (h : ctxDone c i = true) :
    exchangeLoop c d i p = (Except.error c.ctxError, p, []) := by
  unfold exchangeLoop
  simp [h]

theorem exchangeLoop_ok (c : Ctx) (d : Bytes) (i : Nat) (p : Process)
    (r : Bytes) (t : List Ev)
    (hc : ctxDone c i = false)
    (h : exchangeOn p.behavior d = (Except.ok r, t)) :
    exchangeLoop c d i p = (Except.ok r, p, t) := by
  unfold exchangeLoop
  simp [hc, h]

theorem exchangeLoop_nontransient (c : Ctx) (d : Bytes) (i : Nat) (p : Process)
    (e : GoErr) (t : List Ev)
    (hc : ctxDone c i = false)
    (h : exchangeOn p.behavior d = (Except.error e, t))
    (ht : isTransient e = false) :
    exchangeLoop c d i p = (Except.error e, p, t) := by
  unfold exchangeLoop
  simp [hc, h, ht]

theorem exchangeLoop_wait_err (c : Ctx) (d : Bytes) (i : Nat) (p : Process)
    (e we : GoErr) (t : List Ev)
    (hc : ctxDone c i = false)
    (h : exchangeOn p.behavior d = (Except.error e, t))
    (ht : isTransient e = true)
    (hw : p.behavior.waitE = some we) :
    exchangeLoop c d i p = (Except.error we, p, t ++ [Ev.waitEv]) := by
  unfold exchangeLoop
  simp [hc, h, ht, hw]

theorem exchangeLoop_spawn_err (c : Ctx) (d : Bytes) (i : Nat) (b : Behavior)
    (se e : GoErr) (t : List Ev)
    (hc : ctxDone c i = false)
    (h : exchangeOn b d = (Except.error e, t))
    (ht : isTransient e = true)
    (hw : b.waitE = none) :
    exchangeLoop c d i (Process.leaf b se) =
      (Except.error (GoErr.wrap "respawn" se), Process.leaf b se,
        t ++ [Ev.waitEv, Ev.spawnEv]) := by
  unfold exchangeLoop
  simp [Process.behavior, hc, h, ht, hw]

theorem exchangeLoop_respawn (c : Ctx) (d : Bytes) (i : Nat) (b : Behavior)
    (nxt p2 : Process) (e : GoErr) (t t2 : List Ev) (res : Except GoErr Bytes)
    (hc : ctxDone c i = false)
    (h : exchangeOn b d = (Except.error e, t))
    (ht : isTransient e = true)
    (hw : b.waitE = none)
    (hrec : exchangeLoop c d (i + 1) nxt = (res, p2, t2)) :
    exchangeLoop c d i (Process.node b nxt) =
      (res, p2, t ++ [Ev.waitEv, Ev.spawnEv] ++ t2) := by
  conv_lhs => rw [exchangeLoop]
  simp [Process.behavior, hc, h, ht, hw, hrec]

/-! ### Trace shape lemmas -/

/-- Events the retry loop may emit: sends of exactly the payload `d`,
receives, waits and spawns — no lock or release events. -/
def loopEvOk (d : Bytes) : Ev → Bool
  | Ev.sendEv x => x == d
  | Ev.recvEv => true
  | Ev.waitEv => true
  | Ev.spawnEv => true
  | Ev.killEv => false
  | Ev.lockEv => false
  | Ev.releaseEv => false

theorem bool_not_true {x : Bool} (h : ¬x = true) : x = false := by
  revert h
  cases x <;> simp

/-- Every event of the retry loop's trace is a send of the original payload,
a receive, a wait or a spawn. -/
theorem exchangeLoop_trace_all (c : Ctx) (d : Bytes) :
    ∀ (p : Process) (i : Nat), ((exchangeLoop c d i p).2.2).all (loopEvOk d) = true := by
  intro p
  induction p with
  | leaf b se =>
    intro i
    by_cases hcd : ctxDone c i = true
    · rw [exchangeLoop_done c d i _ hcd]
      rfl
    · have hcd' := bool_not_true hcd
      rcases hex : exchangeOn (Process.leaf b se).behavior d with ⟨res, t⟩
      have hsh := exchangeOn_trace (Process.leaf b se).behavior d
      rw [hex] at hsh
      simp only at hsh
      rcases res with e | r
      · by_cases hit : isTransient e = true
        · rcases hw : (Process.leaf b se).behavior.waitE with _ | we
          · rw [exchangeLoop_spawn_err c d i b se e t hcd' hex hit hw]
            rcases hsh with h | h <;> subst h <;> simp [loopEvOk]
          · rw [exchangeLoop_wait_err c d i _ e we t hcd' hex hit hw]
            rcases hsh with h | h <;> subst h <;> simp [loopEvOk]
        · rw [exchangeLoop_nontransient c d i _ e t hcd' hex (bool_not_true hit)]
          rcases hsh with h | h <;> subst h <;> simp [loopEvOk]
      · rw [exchangeLoop_ok c d i _ r t hcd' hex]
        rcases hsh with h | h <;> subst h <;> simp [loopEvOk]
  | node b nxt ih =>
    intro i
    by_cases hcd : ctxDone c i = true
    · rw [exchangeLoop_done c d i _ hcd]
      rfl
    · have hcd' := bool_not_true hcd
      rcases hex : exchangeOn (Process.node b nxt).behavior d with ⟨res, t⟩
      have hsh := exchangeOn_trace (Process.node b nxt).behavior d
      rw [hex] at hsh
      simp only at hsh
      rcases res with e | r
      · by_cases hit : isTransient e = true
        · rcases hw : (Process.node b nxt).behavior.waitE with _ | we
          · rcases hrec : exchangeLoop c d (i + 1) nxt with ⟨res2, p2, t2⟩
            rw [exchangeLoop_respawn c d i b nxt p2 e t t2 res2 hcd' hex hit hw hrec]
            have iht := ih (i + 1)
            rw [hrec] at iht
            simp only at iht
            rcases hsh with h | h <;> subst h <;> simp [loopEvOk, iht]
          · rw [exchangeLoop_wait_err c d i _ e we t hcd' hex hit hw]
            rcases hsh with h | h <;> subst h <;> simp [loopEvOk]
        · rw [exchangeLoop_nontransient c d i _ e t hcd' hex (bool_not_true hit)]
          rcases hsh with h | h <;> subst h <;> simp [loopEvOk]
      · rw [exchangeLoop_ok c d i _ r t hcd' hex]
        rcases hsh with h | h <;> subst h <;> simp [loopEvOk]

/-- `spawnPrecededBy prev l` holds when, scanning `l` with `prev` as the
event just before it, every spawn event is immediately preceded by a wait
event (the reap of the old handle happens before the replacement spawn). -/
def spawnPrecededBy : Option Ev → List Ev → Bool
  | _, [] => true
  | prev, e :: rest =>
    (!(e == Ev.spawnEv) || prev == some Ev.waitEv) && spawnPrecededBy (some e) rest

/-- Appending a release event preserves the wait-before-spawn property. -/
theorem spawnPrecededBy_append_release (t : List Ev) :
    ∀ q, spawnPrecededBy q t = true →
      spawnPrecededBy q (t ++ [Ev.releaseEv]) = true := by
  induction t with
  | nil =>
    intro q _
    simp [spawnPrecededBy]
  | cons e rest ih =>
    intro q h
    simp only [spawnPrecededBy, Bool.and_eq_true] at h
    simp only [List.cons_append, spawnPrecededBy, Bool.and_eq_true]
    exact ⟨h.1, ih (some e) h.2⟩

/-- In every trace of the retry loop, each spawn is immediately preceded by
a wait: the old handle is reaped before the replacement is spawned. -/
theorem exchangeLoop_spawn_after_wait (c : Ctx) (d : Bytes) :
    ∀ (p : Process) (i : Nat) (q : Option Ev),
      spawnPrecededBy q (exchangeLoop c d i p).2.2 = true := by
  intro p
  induction p with
  | leaf b se =>
    intro i q
    by_cases hcd : ctxDone c i = true
    · rw [exchangeLoop_done c d i _ hcd]
      rfl
    · have hcd' := bool_not_true hcd
      rcases hex : exchangeOn (Process.leaf b se).behavior d with ⟨res, t⟩
      have hsh := exchangeOn_trace (Process.leaf b se).behavior d
      rw [hex] at hsh
      simp only at hsh
      rcases res with e | r
      · by_cases hit : isTransient e = true
        · rcases hw : (Process.leaf b se).behavior.waitE with _ | we
          · rw [exchangeLoop_spawn_err c d i b se e t hcd' hex hit hw]
            rcases hsh with h | h <;> subst h <;> simp [spawnPrecededBy]
          · rw [exchangeLoop_wait_err c d i _ e we t hcd' hex hit hw]
            rcases hsh with h | h <;> subst h <;> simp [spawnPrecededBy]
        · rw [exchangeLoop_nontransient c d i _ e t hcd' hex (bool_not_true hit)]
          rcases hsh with h | h <;> subst h <;> simp [spawnPrecededBy]
      · rw [exchangeLoop_ok c d i _ r t hcd' hex]
        rcases hsh with h | h <;> subst h <;> simp [spawnPrecededBy]
  | node b nxt ih =>
    intro i q
    by_cases hcd : ctxDone c i = true
    · rw [exchangeLoop_done c d i _ hcd]
      rfl
    · have hcd' := bool_not_true hcd
      rcases hex : exchangeOn (Process.node b nxt).behavior d with ⟨res, t⟩
      have hsh := exchangeOn_trace (Process.node b nxt).behavior d
      rw [hex] at hsh
      simp only at hsh
      rcases res with e | r
      · by_cases hit : isTransient e = true
        · rcases hw : (Process.node b nxt).behavior.waitE with _ | we
          · rcases hrec : exchangeLoop c d (i + 1) nxt with ⟨res2, p2, t2⟩
            rw [exchangeLoop_respawn c d i b nxt p2 e t t2 res2 hcd' hex hit hw hrec]
            have iht := ih (i + 1) (some Ev.spawnEv)
            rw [hrec] at iht
            simp only at iht
            rcases hsh with h | h <;> subst h <;> simp [spawnPrecededBy, iht]
          · rw [exchangeLoop_wait_err c d i _ e we t hcd' hex hit hw]
            rcases hsh with h | h <;> subst h <;> simp [spawnPrecededBy]
        · rw [exchangeLoop_nontransient c d i _ e t hcd' hex (bool_not_true hit)]
          rcases hsh with h | h <;> subst h <;> simp [spawnPrecededBy]
      · rw [exchangeLoop_ok c d i _ r t hcd' hex]
        rcases hsh with h | h <;> subst h <;> simp [spawnPrecededBy]

/-- A list whose members all satisfy `f` contains no copies of an element
failing `f`. -/
theorem count_zero_of_all {l : List Ev} {f : Ev → Bool} (x : Ev)
    (h : l.all f = true) (hx : f x = false) : l.count x = 0 := by
  rw [List.count_eq_zero]
  intro hmem
  rw [List.all_eq_true] at h
  have hfx := h x hmem
  rw [hx] at hfx
  exact Bool.noConfusion hfx

/-! ### Unfolding lemmas for the governor operations -/

/-- A context that is never done fails no per-iteration check. -/
theorem ctxDone_none (c : Ctx) (h : c.doneAt = none) (i : Nat) :
    ctxDone c i = false := by
  unfold ctxDone
  rw [h]

theorem Exchange_lock_fail (g : Governor) (c : Ctx) (d : Bytes)
    (hlk : c.lockFails = true) :
    Governor.Exchange g c d = (Except.error c.ctxError, g, []) := by
  unfold Governor.Exchange
  simp [hlk]

theorem Exchange_eq (g : Governor) (c : Ctx) (d : Bytes)
    (res : Except GoErr Bytes) (p2 : Process) (t : List Ev)
    (hlk : c.lockFails = false)
    (h : exchangeLoop c d 0 g.process = (res, p2, t)) :
    Governor.Exchange g c d = (res, ⟨p2⟩, Ev.lockEv :: (t ++ [Ev.releaseEv])) := by
  unfold Governor.Exchange
  simp [hlk, h]

theorem ExchangeDirect_lock_fail (g : Governor) (c : Ctx) (d : Bytes)
    (hlk : c.lockFails = true) :
    Governor.ExchangeDirect g c d = (Except.error c.ctxError, g, []) := by
  unfold Governor.ExchangeDirect
  simp [hlk]

theorem ExchangeDirect_eq (g : Governor) (c : Ctx) (d : Bytes)
    (res : Except GoErr Bytes) (t : List Ev)
    (hlk : c.lockFails = false)
    (h : Governor.exchange g d = (res, t)) :
    Governor.ExchangeDirect g c d = (res, g, Ev.lockEv :: (t ++ [Ev.releaseEv])) := by
  unfold Governor.ExchangeDirect
  simp [hlk, h]

/-- On a first-attempt transient transport failure the loop always calls
`Wait` at least once (every branch of the respawn step records the reap). -/
theorem exchangeLoop_transient_wait (c : Ctx) (d : Bytes) (p : Process)
    (e : GoErr) (t : List Ev) (i : Nat)
    (hcd : ctxDone c i = false)
    (h : exchangeOn p.behavior d = (Except.error e, t))
    (ht : isTransient e = true) :
    (exchangeLoop c d i p).2.2.count Ev.waitEv ≥ 1 := by
  rcases hw : p.behavior.waitE with _ | we
  · rcases p with ⟨b, se⟩ | ⟨b, nxt⟩
    · rw [exchangeLoop_spawn_err c d i b se e t hcd h ht hw]
      simp
    · rcases hrec : exchangeLoop c d (i + 1) nxt with ⟨res2, p2, t2⟩
      rw [exchangeLoop_respawn c d i b nxt p2 e t t2 res2 hcd h ht hw hrec]
      simp
      omega
  · rw [exchangeLoop_wait_err c d i _ e we t hcd h ht hw]
    simp

/-! ### Concrete fixtures -/

/-- A context that is never done, with lock acquisition succeeding. -/
def ctxFree : Ctx := ⟨none, GoErr.mk "context canceled", false⟩

/-- A behaviour answering every payload with `r`. -/
def okBeh (r : Bytes) : Behavior :=
  ⟨fun _ => none, fun _ => Except.ok r, none⟩

/-- A behaviour whose `Receive` always fails with `e` (and `Wait` succeeds). -/
def recvErrBeh (e : GoErr) : Behavior :=
  ⟨fun _ => none, fun _ => Except.error e, none⟩

/-- A behaviour whose `Send` always fails with `e` (and `Wait` succeeds). -/
def sendErrBeh (e : GoErr) : Behavior :=
  ⟨fun _ => some e, fun _ => Except.ok [], none⟩

/-- A behaviour whose `Receive` fails with `e` and whose `Wait` fails with `we`. -/
def waitErrBeh (e we : GoErr) : Behavior :=
  ⟨fun _ => none, fun _ => Except.error e, some we⟩

/-- A process of behaviour `b` whose `Spawn` fails. -/
def endProc (b : Behavior) : Process := Process.leaf b (GoErr.mk "spawn failed")

/-! ### The claims -/

/-- Claim C1: for every context that is not done and every payload `q`, if
the current process's first Send+Receive attempt fails with a transient
transport (EOF-equivalent) error, `Wait` on the old handle succeeds, `Spawn`
succeeds, and the replacement process answers `q` with `r2`, then `Exchange`
returns `r2` successfully and exactly one respawn (one wait plus one spawn)
occurred. -/
theorem claim_C1 (c : Ctx) (b1 : Behavior) (p2 : Process) (q r2 : Bytes)
    (e : GoErr) (t1 t2 : List Ev)
    (hnd : c.doneAt = none) (hlk : c.lockFails = false)
    (h1 : exchangeOn b1 q = (Except.error e, t1))
    (ht : isTransient e = true)
    (hw : b1.waitE = none)
    (h2 : exchangeOn p2.behavior q = (Except.ok r2, t2)) :
    (Governor.Exchange ⟨Process.node b1 p2⟩ c q).1 = Except.ok r2 ∧
    (Governor.Exchange ⟨Process.node b1 p2⟩ c q).2.2.count Ev.waitEv = 1 ∧
    (Governor.Exchange ⟨Process.node b1 p2⟩ c q).2.2.count Ev.spawnEv = 1 := by
  have hcd0 := ctxDone_none c hnd 0
  have hcd1 := ctxDone_none c hnd 1
  have hstep2 : exchangeLoop c q 1 p2 = (Except.ok r2, p2, t2) :=
    exchangeLoop_ok c q 1 p2 r2 t2 hcd1 h2
  have hstep1 : exchangeLoop c q 0 (Process.node b1 p2) =
      (Except.ok r2, p2, t1 ++ [Ev.waitEv, Ev.spawnEv] ++ t2) :=
    exchangeLoop_respawn c q 0 b1 p2 p2 e t1 t2 (Except.ok r2) hcd0 h1 ht hw hstep2
  rw [Exchange_eq ⟨Process.node b1 p2⟩ c q (Except.ok r2) p2
      (t1 ++ [Ev.waitEv, Ev.spawnEv] ++ t2) hlk hstep1]
  have hs1 := exchangeOn_trace b1 q
  rw [h1] at hs1
  simp only at hs1
  have hs2 := exchangeOn_trace p2.behavior q
  rw [h2] at hs2
  simp only at hs2
  refine ⟨rfl, ?_, ?_⟩ <;>
    rcases hs1 with h1' | h1' <;> rcases hs2 with h2' | h2' <;>
      subst h1' <;> subst h2' <;>
      simp [List.count_cons, List.count_append]

/-- Witness for C1 at a concrete fake process pair. -/
theorem claim_C1_witness :
    (Governor.Exchange ⟨Process.node (recvErrBeh GoErr.eof) (endProc (okBeh [7]))⟩
        ctxFree [1]).1 = Except.ok [7] ∧
    (Governor.Exchange ⟨Process.node (recvErrBeh GoErr.eof) (endProc (okBeh [7]))⟩
        ctxFree [1]).2.2.count Ev.waitEv = 1 ∧
    (Governor.Exchange ⟨Process.node (recvErrBeh GoErr.eof) (endProc (okBeh [7]))⟩
        ctxFree [1]).2.2.count Ev.spawnEv = 1 :=
  claim_C1 ctxFree (recvErrBeh GoErr.eof) (endProc (okBeh [7])) [1] [7] GoErr.eof
    [Ev.sendEv [1], Ev.recvEv] [Ev.sendEv [1], Ev.recvEv]
    rfl rfl rfl rfl rfl rfl

/-- Claim C2: for every error an exchange attempt returns, `Exchange` takes
the respawn path (calls `Wait`) if and only if the error has `io.EOF` in its
cause chain, or its message contains `"file already closed"`, or it contains
`"broken pipe"`; every other error takes the non-respawn return path, leaving
the result and handle untouched. -/
theorem claim_C2 (c : Ctx) (p : Process) (d : Bytes) (e : GoErr) (t : List Ev)
    (hnd : c.doneAt = none) (hlk : c.lockFails = false)
    (h : exchangeOn p.behavior d = (Except.error e, t)) :
    ((Governor.Exchange ⟨p⟩ c d).2.2.count Ev.waitEv ≥ 1 ↔
      (errIs e GoErr.eof
        || strContains (errText e) "file already closed"
        || strContains (errText e) "broken pipe") = true) ∧
    ((errIs e GoErr.eof
        || strContains (errText e) "file already closed"
        || strContains (errText e) "broken pipe") = false →
      (Governor.Exchange ⟨p⟩ c d).1 = Except.error e ∧
      (Governor.Exchange ⟨p⟩ c d).2.1 = ⟨p⟩) := by
  have hcd0 := ctxDone_none c hnd 0
  by_cases hit : isTransient e = true
  · have hit' : (errIs e GoErr.eof
        || strContains (errText e) "file already closed"
        || strContains (errText e) "broken pipe") = true := by
      rw [isTransient] at hit
      exact hit
    rcases hloop : exchangeLoop c d 0 p with ⟨res, p2, t2⟩
    rw [Exchange_eq ⟨p⟩ c d res p2 t2 hlk hloop]
    have hwge := exchangeLoop_transient_wait c d p e t 0 hcd0 h hit
    rw [hloop] at hwge
    have hwge2 : t2.count Ev.waitEv ≥ 1 := hwge
    constructor
    · constructor
      · intro _
        exact hit'
      · intro _
        show (Ev.lockEv :: (t2 ++ [Ev.releaseEv])).count Ev.waitEv ≥ 1
        have h1 : (Ev.lockEv :: (t2 ++ [Ev.releaseEv])).count Ev.waitEv
            = t2.count Ev.waitEv := by
          simp [List.count_cons, List.count_append]
        rw [h1]
        exact hwge2
    · intro hfalse
      rw [hit'] at hfalse
      exact Bool.noConfusion hfalse
  · have hit0 := bool_not_true hit
    have hit0' : (errIs e GoErr.eof
        || strContains (errText e) "file already closed"
        || strContains (errText e) "broken pipe") = false := by
      rw [isTransient] at hit0
      exact hit0
    have hloop := exchangeLoop_nontransient c d 0 p e t hcd0 h hit0
    rw [Exchange_eq ⟨p⟩ c d (Except.error e) p t hlk hloop]
    have hsh := exchangeOn_trace p.behavior d
    rw [h] at hsh
    simp only at hsh
    constructor
    · constructor
      · intro hge
        rcases hsh with h' | h' <;> subst h' <;>
          simp [List.count_cons, List.count_append] at hge
      · intro htr
        rw [hit0'] at htr
        exact Bool.noConfusion htr
    · intro _
      exact ⟨rfl, rfl⟩

/-- Witness for C2 at a non-transient send failure. -/
theorem claim_C2_witness :
    ((Governor.Exchange ⟨endProc (sendErrBeh (GoErr.mk "bad request"))⟩
        ctxFree [1]).2.2.count Ev.waitEv ≥ 1 ↔
      (errIs (GoErr.mk "bad request") GoErr.eof
        || strContains (errText (GoErr.mk "bad request")) "file already closed"
        || strContains (errText (GoErr.mk "bad request")) "broken pipe") = true) ∧
    ((errIs (GoErr.mk "bad request") GoErr.eof
        || strContains (errText (GoErr.mk "bad request")) "file already closed"
        || strContains (errText (GoErr.mk "bad request")) "broken pipe") = false →
      (Governor.Exchange ⟨endProc (sendErrBeh (GoErr.mk "bad request"))⟩
          ctxFree [1]).1 = Except.error (GoErr.mk "bad request") ∧
      (Governor.Exchange ⟨endProc (sendErrBeh (GoErr.mk "bad request"))⟩
          ctxFree [1]).2.1 = ⟨endProc (sendErrBeh (GoErr.mk "bad request"))⟩) :=
  claim_C2 ctxFree (endProc (sendErrBeh (GoErr.mk "bad request"))) [1]
    (GoErr.mk "bad request") [Ev.sendEv [1]] rfl rfl rfl

/-- Claim C3: on every transient transport failure the respawn step runs in
order — in any `Exchange` trace every spawn is immediately preceded by a
wait on the old handle; if `Wait` fails, `Exchange` returns that error and
`Spawn` is never called; if `Wait` succeeds but `Spawn` fails, `Exchange`
returns the spawn error wrapped with `"respawn"` and the current handle is
not replaced. -/
theorem claim_C3 :
    (∀ (g : Governor) (c : Ctx) (d : Bytes),
      spawnPrecededBy none (Governor.Exchange g c d).2.2 = true) ∧
    (∀ (c : Ctx) (p : Process) (d : Bytes) (e we : GoErr) (t : List Ev),
      c.doneAt = none → c.lockFails = false →
      exchangeOn p.behavior d = (Except.error e, t) → isTransient e = true →
      p.behavior.waitE = some we →
      (Governor.Exchange ⟨p⟩ c d).1 = Except.error we ∧
      (Governor.Exchange ⟨p⟩ c d).2.2.count Ev.spawnEv = 0 ∧
      (Governor.Exchange ⟨p⟩ c d).2.1 = ⟨p⟩) ∧
    (∀ (c : Ctx) (b : Behavior) (se : GoErr) (d : Bytes) (e : GoErr) (t : List Ev),
      c.doneAt = none → c.lockFails = false →
      exchangeOn b d = (Except.error e, t) → isTransient e = true →
      b.waitE = none →
      (Governor.Exchange ⟨Process.leaf b se⟩ c d).1 =
        Except.error (GoErr.wrap "respawn" se) ∧
      (Governor.Exchange ⟨Process.leaf b se⟩ c d).2.1 = ⟨Process.leaf b se⟩) := by
  refine ⟨?_, ?_, ?_⟩
  · intro g c d
    by_cases hlk : c.lockFails = true
    · rw [Exchange_lock_fail g c d hlk]
      rfl
    · rcases hloop : exchangeLoop c d 0 g.process with ⟨res, p2, t⟩
      rw [Exchange_eq g c d res p2 t (bool_not_true hlk) hloop]
      show spawnPrecededBy none (Ev.lockEv :: (t ++ [Ev.releaseEv])) = true
      have hlp := exchangeLoop_spawn_after_wait c d g.process 0 (some Ev.lockEv)
      rw [hloop] at hlp
      have hlp2 : spawnPrecededBy (some Ev.lockEv) t = true := hlp
      have hrel := spawnPrecededBy_append_release t (some Ev.lockEv) hlp2
      simp [spawnPrecededBy, hrel]
  · intro c p d e we t hnd hlk h ht hw
    have hcd0 := ctxDone_none c hnd 0
    have hloop := exchangeLoop_wait_err c d 0 p e we t hcd0 h ht hw
    rw [Exchange_eq ⟨p⟩ c d (Except.error we) p (t ++ [Ev.waitEv]) hlk hloop]
    have hsh := exchangeOn_trace p.behavior d
    rw [h] at hsh
    simp only at hsh
    refine ⟨rfl, ?_, rfl⟩
    rcases hsh with h' | h' <;> subst h' <;>
      simp [List.count_cons, List.count_append]
  · intro c b se d e t hnd hlk h ht hw
    have hcd0 := ctxDone_none c hnd 0
    have hloop := exchangeLoop_spawn_err c d 0 b se e t hcd0 h ht hw
    rw [Exchange_eq ⟨Process.leaf b se⟩ c d _ _ _ hlk hloop]
    exact ⟨rfl, rfl⟩

/-- Witness for C3: the ordering fact at a respawning process, the wait-fail
path and the spawn-fail path at concrete fakes. -/
theorem claim_C3_witness :
    spawnPrecededBy none
      (Governor.Exchange ⟨endProc (recvErrBeh GoErr.eof)⟩ ctxFree [2]).2.2 = true ∧
    ((Governor.Exchange ⟨endProc (waitErrBeh GoErr.eof (GoErr.mk "reap failed"))⟩
        ctxFree [2]).1 = Except.error (GoErr.mk "reap failed") ∧
      (Governor.Exchange ⟨endProc (waitErrBeh GoErr.eof (GoErr.mk "reap failed"))⟩
        ctxFree [2]).2.2.count Ev.spawnEv = 0 ∧
      (Governor.Exchange ⟨endProc (waitErrBeh GoErr.eof (GoErr.mk "reap failed"))⟩
        ctxFree [2]).2.1 = ⟨endProc (waitErrBeh GoErr.eof (GoErr.mk "reap failed"))⟩) ∧
    ((Governor.Exchange ⟨Process.leaf (recvErrBeh GoErr.eof) (GoErr.mk "boom")⟩
        ctxFree [2]).1 = Except.error (GoErr.wrap "respawn" (GoErr.mk "boom")) ∧
      (Governor.Exchange ⟨Process.leaf (recvErrBeh GoErr.eof) (GoErr.mk "boom")⟩
        ctxFree [2]).2.1 = ⟨Process.leaf (recvErrBeh GoErr.eof) (GoErr.mk "boom")⟩) :=
  ⟨claim_C3.1 ⟨endProc (recvErrBeh GoErr.eof)⟩ ctxFree [2],
   claim_C3.2.1 ctxFree (endProc (waitErrBeh GoErr.eof (GoErr.mk "reap failed"))) [2]
     GoErr.eof (GoErr.mk "reap failed") [Ev.sendEv [2], Ev.recvEv] rfl rfl rfl rfl rfl,
   claim_C3.2.2 ctxFree (recvErrBeh GoErr.eof) (GoErr.mk "boom") [2] GoErr.eof
     [Ev.sendEv [2], Ev.recvEv] rfl rfl rfl rfl rfl⟩

/-- Claim C4 counterexample: at a concrete non-transient failure (a
`"bad request"` error from `Send`), `Exchange` returns the error exactly as
produced — it is not wrapped with an `"exchange"` label and its message does
not even contain `"exchange"`, refuting the claimed wrapping. -/
theorem claim_C4_counterexample :
    (Governor.Exchange ⟨endProc (sendErrBeh (GoErr.mk "bad request"))⟩ ctxFree [1]).1
        = Except.error (GoErr.mk "bad request") ∧
    (Governor.Exchange ⟨endProc (sendErrBeh (GoErr.mk "bad request"))⟩ ctxFree [1]).1
        ≠ Except.error (GoErr.wrap "exchange" (GoErr.mk "bad request")) ∧
    strContains (errText (GoErr.mk "bad request")) "exchange" = false := by
  refine ⟨rfl, ?_, by decide⟩
  intro hco
  have h1 : (Except.error (GoErr.mk "bad request") : Except GoErr Bytes)
      = Except.error (GoErr.wrap "exchange" (GoErr.mk "bad request")) := hco
  exact GoErr.noConfusion (Except.error.inj h1)

/-- Claim C4 (amended): for every error from an exchange attempt that does
not match the transient transport signatures, `Exchange` returns that error
to the caller verbatim — unmodified and unwrapped — so cause-chain
inspection trivially still identifies it. -/
theorem claim_C4_amended (c : Ctx) (p : Process) (d : Bytes) (e : GoErr) (t : List Ev)
    (hnd : c.doneAt = none) (hlk : c.lockFails = false)
    (h : exchangeOn p.behavior d = (Except.error e, t))
    (ht : isTransient e = false) :
    (Governor.Exchange ⟨p⟩ c d).1 = Except.error e := by
  have hcd0 := ctxDone_none c hnd 0
  rw [Exchange_eq ⟨p⟩ c d (Except.error e) p t hlk
    (exchangeLoop_nontransient c d 0 p e t hcd0 h ht)]

/-- Witness for the amended C4 at a concrete non-transient failure. -/
theorem claim_C4_amended_witness :
    (Governor.Exchange ⟨endProc (sendErrBeh (GoErr.mk "bad request"))⟩ ctxFree [1]).1
      = Except.error (GoErr.mk "bad request") :=
  claim_C4_amended ctxFree (endProc (sendErrBeh (GoErr.mk "bad request"))) [1]
    (GoErr.mk "bad request") [Ev.sendEv [1]] rfl rfl rfl rfl

/-- Claim C5: for every exchange-attempt error not matching the transport
signatures, `Exchange` performs no `Wait` and no `Spawn` (the spawn count
stays at its construction value) and leaves the current handle unchanged,
returning the error. -/
theorem claim_C5 (c : Ctx) (p : Process) (d : Bytes) (e : GoErr) (t : List Ev)
    (hnd : c.doneAt = none) (hlk : c.lockFails = false)
    (h : exchangeOn p.behavior d = (Except.error e, t))
    (ht : isTransient e = false) :
    (Governor.Exchange ⟨p⟩ c d).1 = Except.error e ∧
    (Governor.Exchange ⟨p⟩ c d).2.2.count Ev.waitEv = 0 ∧
    (Governor.Exchange ⟨p⟩ c d).2.2.count Ev.spawnEv = 0 ∧
    (Governor.Exchange ⟨p⟩ c d).2.1 = ⟨p⟩ := by
  have hcd0 := ctxDone_none c hnd 0
  rw [Exchange_eq ⟨p⟩ c d (Except.error e) p t hlk
    (exchangeLoop_nontransient c d 0 p e t hcd0 h ht)]
  have hsh := exchangeOn_trace p.behavior d
  rw [h] at hsh
  simp only at hsh
  refine ⟨rfl, ?_, ?_, rfl⟩ <;>
    rcases hsh with h' | h' <;> subst h' <;>
      simp [List.count_cons, List.count_append]

/-- Witness for C5: a `"bad request"` send failure causes no wait, no spawn
and no handle change. -/
theorem claim_C5_witness :
    (Governor.Exchange ⟨endProc (sendErrBeh (GoErr.mk "bad request"))⟩ ctxFree [6]).1
        = Except.error (GoErr.mk "bad request") ∧
    (Governor.Exchange ⟨endProc (sendErrBeh (GoErr.mk "bad request"))⟩
        ctxFree [6]).2.2.count Ev.waitEv = 0 ∧
    (Governor.Exchange ⟨endProc (sendErrBeh (GoErr.mk "bad request"))⟩
        ctxFree [6]).2.2.count Ev.spawnEv = 0 ∧
    (Governor.Exchange ⟨endProc (sendErrBeh (GoErr.mk "bad request"))⟩
        ctxFree [6]).2.1 = ⟨endProc (sendErrBeh (GoErr.mk "bad request"))⟩ :=
  claim_C5 ctxFree (endProc (sendErrBeh (GoErr.mk "bad request"))) [6]
    (GoErr.mk "bad request") [Ev.sendEv [6]] rfl rfl rfl rfl

/-- Claim C6: at the top of every retry-loop iteration (including the first,
once the mutex is held), an already-done context makes the loop return the
context's error with an empty trace — no send happens — and at the
`Exchange` level a context done from iteration zero yields the context error
verbatim with no send, wait or spawn (so a cancellation or deadline error
never itself triggers a respawn). -/
theorem claim_C6 :
    (∀ (c : Ctx) (d : Bytes) (i : Nat) (p : Process), ctxDone c i = true →
      exchangeLoop c d i p = (Except.error c.ctxError, p, [])) ∧
    (∀ (c : Ctx) (g : Governor) (d : Bytes), c.lockFails = false →
      ctxDone c 0 = true →
      Governor.Exchange g c d =
        (Except.error c.ctxError, g, [Ev.lockEv, Ev.releaseEv])) := by
  constructor
  · intro c d i p hdone
    exact exchangeLoop_done c d i p hdone
  · intro c g d hlk hdone
    rw [Exchange_eq g c d (Except.error c.ctxError) g.process [] hlk
      (exchangeLoop_done c d 0 g.process hdone)]
    rfl

/-- A context whose `Done` channel has already fired at iteration zero. -/
def ctxDoneNow : Ctx := ⟨some 0, GoErr.mk "context deadline exceeded", false⟩

/-- Witness for C6 at a concrete already-done context. -/
theorem claim_C6_witness :
    exchangeLoop ctxDoneNow [3] 0 (endProc (okBeh [4])) =
      (Except.error (GoErr.mk "context deadline exceeded"), endProc (okBeh [4]), []) ∧
    Governor.Exchange ⟨endProc (okBeh [4])⟩ ctxDoneNow [3] =
      (Except.error (GoErr.mk "context deadline exceeded"), ⟨endProc (okBeh [4])⟩,
        [Ev.lockEv, Ev.releaseEv]) :=
  ⟨claim_C6.1 ctxDoneNow [3] 0 (endProc (okBeh [4])) rfl,
   claim_C6.2 ctxDoneNow ⟨endProc (okBeh [4])⟩ [3] rfl rfl⟩

/-- Recognizer of send events. -/
def isSendEv : Ev → Bool
  | Ev.sendEv _ => true
  | _ => false

/-- Claim C7: `ExchangeDirect` returns the lock error if acquisition fails;
otherwise it performs exactly one Send+Receive attempt against the current
handle (one send event, no wait, no spawn), leaves the handle unchanged, and
returns the raw result of that single attempt. -/
theorem claim_C7 (g : Governor) (c : Ctx) (d : Bytes) :
    (c.lockFails = true →
      Governor.ExchangeDirect g c d = (Except.error c.ctxError, g, [])) ∧
    (c.lockFails = false →
      (Governor.ExchangeDirect g c d).1 = (Governor.exchange g d).1 ∧
      (Governor.ExchangeDirect g c d).2.1 = g ∧
      (Governor.ExchangeDirect g c d).2.2 =
        Ev.lockEv :: ((Governor.exchange g d).2 ++ [Ev.releaseEv]) ∧
      ((Governor.ExchangeDirect g c d).2.2.filter isSendEv).length = 1 ∧
      (Governor.ExchangeDirect g c d).2.2.count Ev.waitEv = 0 ∧
      (Governor.ExchangeDirect g c d).2.2.count Ev.spawnEv = 0) := by
  constructor
  · intro hlk
    exact ExchangeDirect_lock_fail g c d hlk
  · intro hlk
    rcases hx : Governor.exchange g d with ⟨res, t⟩
    have hsh := exchangeOn_trace g.process.behavior d
    have hx' : exchangeOn g.process.behavior d = (res, t) := hx
    rw [hx'] at hsh
    simp only at hsh
    rw [ExchangeDirect_eq g c d res t hlk hx]
    refine ⟨rfl, rfl, rfl, ?_, ?_, ?_⟩ <;>
      rcases hsh with h' | h' <;> subst h' <;>
        simp [isSendEv, List.count_cons, List.count_append]

/-- Witness for C7 at a concrete healthy process. -/
theorem claim_C7_witness :
    (Governor.ExchangeDirect ⟨endProc (okBeh [9])⟩ ctxFree [5]).1 =
      (Governor.exchange ⟨endProc (okBeh [9])⟩ [5]).1 ∧
    (Governor.ExchangeDirect ⟨endProc (okBeh [9])⟩ ctxFree [5]).2.1 =
      ⟨endProc (okBeh [9])⟩ ∧
    (Governor.ExchangeDirect ⟨endProc (okBeh [9])⟩ ctxFree [5]).2.2 =
      Ev.lockEv :: ((Governor.exchange ⟨endProc (okBeh [9])⟩ [5]).2 ++ [Ev.releaseEv]) ∧
    ((Governor.ExchangeDirect ⟨endProc (okBeh [9])⟩ ctxFree [5]).2.2.filter
        isSendEv).length = 1 ∧
    (Governor.ExchangeDirect ⟨endProc (okBeh [9])⟩ ctxFree [5]).2.2.count Ev.waitEv = 0 ∧
    (Governor.ExchangeDirect ⟨endProc (okBeh [9])⟩ ctxFree [5]).2.2.count Ev.spawnEv = 0 :=
  (claim_C7 ⟨endProc (okBeh [9])⟩ ctxFree [5]).2 rfl

/-- Claim C8: in every public governor operation (`Exchange`,
`ExchangeDirect`, `Kill`, `Wait`), each successful mutex acquisition is
matched by exactly one release on every exit path, and no release happens
when acquisition failed. -/
theorem claim_C8 (g : Governor) (c : Ctx) (d : Bytes) :
    ((Governor.Exchange g c d).2.2.count Ev.lockEv,
      (Governor.Exchange g c d).2.2.count Ev.releaseEv)
        = (if c.lockFails then ((0 : Nat), (0 : Nat)) else (1, 1)) ∧
    ((Governor.ExchangeDirect g c d).2.2.count Ev.lockEv,
      (Governor.ExchangeDirect g c d).2.2.count Ev.releaseEv)
        = (if c.lockFails then ((0 : Nat), (0 : Nat)) else (1, 1)) ∧
    ((Governor.Kill g).count Ev.lockEv = 1 ∧
      (Governor.Kill g).count Ev.releaseEv = 1) ∧
    ((Governor.Wait g).2.count Ev.lockEv = 1 ∧
      (Governor.Wait g).2.count Ev.releaseEv = 1) := by
  refine ⟨?_, ?_, ⟨rfl, rfl⟩, ⟨rfl, rfl⟩⟩
  · by_cases hlk : c.lockFails = true
    · rw [Exchange_lock_fail g c d hlk]
      simp [hlk]
    · have hlk' := bool_not_true hlk
      rcases hloop : exchangeLoop c d 0 g.process with ⟨res, p2, t⟩
      rw [Exchange_eq g c d res p2 t hlk' hloop]
      have hall := exchangeLoop_trace_all c d g.process 0
      rw [hloop] at hall
      have hall2 : t.all (loopEvOk d) = true := hall
      have hl0 : t.count Ev.lockEv = 0 := count_zero_of_all Ev.lockEv hall2 rfl
      have hr0 : t.count Ev.releaseEv = 0 := count_zero_of_all Ev.releaseEv hall2 rfl
      simp [hlk', List.count_cons, List.count_append, hl0, hr0]
  · by_cases hlk : c.lockFails = true
    · rw [ExchangeDirect_lock_fail g c d hlk]
      simp [hlk]
    · have hlk' := bool_not_true hlk
      rcases hx : Governor.exchange g d with ⟨res, t⟩
      have hsh := exchangeOn_trace g.process.behavior d
      have hx' : exchangeOn g.process.behavior d = (res, t) := hx
      rw [hx'] at hsh
      simp only at hsh
      rw [ExchangeDirect_eq g c d res t hlk' hx]
      rcases hsh with h' | h' <;> subst h' <;>
        simp [hlk', List.count_cons, List.count_append]

/-- Recognizer: a send event carries exactly the payload `d`. -/
def sendsPayload (d : Bytes) : Ev → Bool
  | Ev.sendEv x => x == d
  | _ => true

/-- Pointwise: loop events satisfy the payload condition. -/
theorem loopEvOk_sendsPayload (d : Bytes) (x : Ev) (h : loopEvOk d x = true) :
    sendsPayload d x = true := by
  cases x <;> simp_all [loopEvOk, sendsPayload]

/-- Claim C9: every send an `Exchange` call performs — the first attempt and
every retry after a respawn — carries the caller's original payload
unchanged (the response bound in the loop body shadows the argument and
never overwrites it). -/
theorem claim_C9 (g : Governor) (c : Ctx) (d : Bytes) :
    ((Governor.Exchange g c d).2.2).all (sendsPayload d) = true := by
  by_cases hlk : c.lockFails = true
  · rw [Exchange_lock_fail g c d hlk]
    rfl
  · rcases hloop : exchangeLoop c d 0 g.process with ⟨res, p2, t⟩
    rw [Exchange_eq g c d res p2 t (bool_not_true hlk) hloop]
    have hall := exchangeLoop_trace_all c d g.process 0
    rw [hloop] at hall
    have hall2 : t.all (loopEvOk d) = true := hall
    show (Ev.lockEv :: (t ++ [Ev.releaseEv])).all (sendsPayload d) = true
    rw [List.all_eq_true] at hall2 ⊢
    intro x hx
    simp only [List.mem_cons, List.mem_append, List.mem_singleton] at hx
    rcases hx with hx | hx | hx
    · subst hx
      rfl
    · exact loopEvOk_sendsPayload d x (hall2 x hx)
    · rcases hx with hx | hx
      · subst hx
        rfl
      · cases hx

/-- Claim C10: within a single attempt, a failed `Send` short-circuits the
attempt — `Receive` is not called and the send error is the attempt's
error — and a send error matching the transport signatures triggers the
respawn path of `Exchange` exactly as a receive error would. -/
theorem claim_C10 :
    (∀ (b : Behavior) (d : Bytes) (e : GoErr), b.sendE d = some e →
      exchangeOn b d = (Except.error e, [Ev.sendEv d])) ∧
    (∀ (c : Ctx) (p : Process) (d : Bytes) (e : GoErr),
      c.doneAt = none → c.lockFails = false →
      p.behavior.sendE d = some e → isTransient e = true →
      (Governor.Exchange ⟨p⟩ c d).2.2.count Ev.waitEv ≥ 1) := by
  constructor
  · intro b d e h
    unfold exchangeOn
    rw [h]
  · intro c p d e hnd hlk hs ht
    have hat : exchangeOn p.behavior d = (Except.error e, [Ev.sendEv d]) := by
      unfold exchangeOn
      rw [hs]
    have hcd0 := ctxDone_none c hnd 0
    have hwge := exchangeLoop_transient_wait c d p e [Ev.sendEv d] 0 hcd0 hat ht
    rcases hloop : exchangeLoop c d 0 p with ⟨res, p2, t2⟩
    rw [hloop] at hwge
    have hwge2 : t2.count Ev.waitEv ≥ 1 := hwge
    rw [Exchange_eq ⟨p⟩ c d res p2 t2 hlk hloop]
    show (Ev.lockEv :: (t2 ++ [Ev.releaseEv])).count Ev.waitEv ≥ 1
    have h1 : (Ev.lockEv :: (t2 ++ [Ev.releaseEv])).count Ev.waitEv
        = t2.count Ev.waitEv := by
      simp [List.count_cons, List.count_append]
    rw [h1]
    exact hwge2

/-- Witness for C10 at a concrete transient send failure. -/
theorem claim_C10_witness :
    exchangeOn (sendErrBeh GoErr.eof) [4] = (Except.error GoErr.eof, [Ev.sendEv [4]]) ∧
    (Governor.Exchange ⟨endProc (sendErrBeh GoErr.eof)⟩ ctxFree [4]).2.2.count
        Ev.waitEv ≥ 1 :=
  ⟨claim_C10.1 (sendErrBeh GoErr.eof) [4] GoErr.eof rfl,
   claim_C10.2 ctxFree (endProc (sendErrBeh GoErr.eof)) [4] GoErr.eof rfl rfl rfl rfl⟩
